import Mathlib

/-
Shallow embedding of the persistent-connection notification client of
fonero-project/fnowallet (package `chain`): the notification translator
callbacks, the Start/Stop lifecycle logic, and the two dispatch loops
(`handler` and `handlerVoting`) modelled as labelled transition systems.
-/

namespace Chain

/-- Block / transaction hashes (chainhash.Hash) abstracted as naturals. -/
abbrev Hash := Nat

/-- A decoded transaction (wire.MsgTx) abstracted as an opaque value. -/
structure MsgTx where
  raw : Nat
deriving Repr, DecidableEq

/-- The notification types of the chain package (the tagged Event variant):
blockConnected, blockDisconnected, relevantTxAccepted, reorganization,
winningTickets, missedTickets, stakeDifficulty. Byte strings are lists of
naturals, int64 heights are integers. -/
inductive Notification where
  | blockConnected (blockHeader : List Nat) (transactions : List (List Nat))
  | blockDisconnected (blockHeader : List Nat)
  | relevantTxAccepted (transaction : MsgTx)
  | reorganization (oldHash : Hash) (oldHeight : Int) (newHash : Hash) (newHeight : Int)
  | winningTickets (blockHash : Hash) (blockHeight : Int) (tickets : List Hash)
  | missedTickets (blockHash : Hash) (blockHeight : Int) (tickets : List Hash)
  | stakeDifficulty (blockHash : Hash) (blockHeight : Int) (stakeDiff : Int)
deriving Repr, DecidableEq

/-- Discriminator for the winningTickets variant. -/
def isWinningTickets : Notification → Bool
  | .winningTickets _ _ _ => true
  | _ => false

/-- The two delivery queues: `general` is the enqueueNotification /
dequeueNotification pair served by `handler`; `voting` is the
enqueueVotingNotification / dequeueVotingNotification pair served by
`handlerVoting`. -/
inductive Queue where
  | general
  | voting
deriving Repr, DecidableEq

/-- RPCClient.onBlockConnected: wraps its arguments in a blockConnected
value and offers it to the general queue (c.enqueueNotification). -/
def onBlockConnected (header : List Nat) (transactions : List (List Nat)) :
    Queue × Notification :=
  (Queue.general, Notification.blockConnected header transactions)

/-- RPCClient.onBlockDisconnected: wraps the header in a blockDisconnected
value and offers it to the general queue. -/
def onBlockDisconnected (header : List Nat) : Queue × Notification :=
  (Queue.general, Notification.blockDisconnected header)

/-- RPCClient.onRelevantTxAccepted: deserializes the raw transaction; on
decode failure the event is dropped (logged, never enqueued); on success a
relevantTxAccepted value is offered to the general queue. The wire decoder
is external to this repository, so it is a parameter. -/
def onRelevantTxAccepted (deserialize : List Nat → Option MsgTx)
    (transaction : List Nat) : Option (Queue × Notification) :=
  match deserialize transaction with
  | none => none
  | some msgTx => some (Queue.general, Notification.relevantTxAccepted msgTx)

/-- RPCClient.onReorganization: wraps its arguments in a reorganization
value and offers it to the general queue. -/
def onReorganization (oldHash : Hash) (oldHeight : Int) (newHash : Hash)
    (newHeight : Int) : Queue × Notification :=
  (Queue.general, Notification.reorganization oldHash oldHeight newHash newHeight)

/-- RPCClient.onWinningTickets: wraps its arguments in a winningTickets
value and offers it to the voting queue (c.enqueueVotingNotification). -/
def onWinningTickets (hash : Hash) (height : Int) (tickets : List Hash) :
    Queue × Notification :=
  (Queue.voting, Notification.winningTickets hash height tickets)

/-- The unspent (missed) subset of a ticket→spent mapping, in iteration
order: the hashes whose spent flag is false. The Go map is modelled as an
association list. -/
def missedOf (tickets : List (Hash × Bool)) : List Hash :=
  (tickets.filter (fun p => !p.2)).map Prod.fst

/-- RPCClient.onSpentAndMissedTickets: filters the ticket→spent mapping
down to the unspent (missed) subset; when that subset is empty no event is
produced, otherwise a single missedTickets event carrying exactly the
missed hashes is offered to the general queue. The stake difficulty
argument is ignored by the code. -/
def onSpentAndMissedTickets (blockHash : Hash) (height : Int) (_sdiff : Int)
    (tickets : List (Hash × Bool)) : Option (Queue × Notification) :=
  let missed := missedOf tickets
  if missed.isEmpty then none
  else some (Queue.general, Notification.missedTickets blockHash height missed)

/-- RPCClient.onStakeDifficulty: wraps its arguments in a stakeDifficulty
value and offers it to the general queue. -/
def onStakeDifficulty (hash : Hash) (height : Int) (stakeDiff : Int) :
    Queue × Notification :=
  (Queue.general, Notification.stakeDifficulty hash height stakeDiff)

/-- The mutex-guarded shared state of an RPCClient that Stop reads and
writes: whether the quit channel has been closed, the started flag, whether
the transport Shutdown has been invoked, and whether each of the two
consumer-facing dequeue channels has been closed. -/
structure ClientState where
  quitClosed : Bool
  started : Bool
  shutdownCalled : Bool
  dequeueClosed : Bool
  dequeueVotingClosed : Bool
deriving Repr, DecidableEq

/-- Closing a Go channel: panics (none) when the channel is already
closed, otherwise marks it closed. -/
def closeChan (alreadyClosed : Bool) : Option Bool :=
  if alreadyClosed then none else some true

/-- RPCClient.Stop, sequentialized by its quitMtx guard: when the quit
channel is already closed the select's default is not taken and nothing
happens; otherwise quit is closed, the transport Shutdown is invoked, and,
only when the client was never started, both dequeue channels are closed
directly. `none` means a double-close panic occurred. -/
def Stop (s : ClientState) : Option ClientState :=
  if s.quitClosed then some s
  else
    match closeChan s.quitClosed with
    | none => none
    | some _ =>
      let s1 : ClientState :=
        { s with quitClosed := true, shutdownCalled := true }
      if s1.started then some s1
      else
        match closeChan s1.dequeueClosed with
        | none => none
        | some _ =>
          match closeChan s1.dequeueVotingClosed with
          | none => none
          | some _ =>
            some { s1 with dequeueClosed := true, dequeueVotingClosed := true }

/-- A semantic version major.minor.patch, as in the chain package. -/
structure semver where
  major : Nat
  minor : Nat
  patch : Nat
deriving Repr, DecidableEq

/-- requiredChainServerAPI = semver{major: 5, minor: 0, patch: 0}. -/
def requiredChainServerAPI : semver := { major := 5, minor := 0, patch := 0 }

/-- Modelled from the spec: the semver compatibility predicate of the chain
package (its semver helper file is not among the provided sources). Per the
spec, the server's advertised API version is compatible when it has the same
major version as the required minimum and is at least that minimum, i.e. the
(minor, patch) pair is lexicographically at least the required one. -/
def semverCompatible (required actual : semver) : Bool :=
  required.major == actual.major &&
    (decide (required.minor < actual.minor) ||
      (required.minor == actual.minor && decide (required.patch ≤ actual.patch)))

/-- Modelled from the spec: classification of the errors Start can return
(the errors package is not among the provided sources). `transport` is the
connect failure surfaced as an IO error; `getCurrentNetFailed` wraps a
failed getcurrentnet call; `protocolNet` is the mismatched-networks
Protocol error; `protocolVersion` is the incompatible-API-version Protocol
error, carrying the advertised version it names. -/
inductive StartError where
  | transport
  | getCurrentNetFailed
  | protocolNet
  | protocolVersion (advertised : semver)
deriving Repr, DecidableEq

/-- The remote server's behaviour as observed by one Start call: whether
Connect fails, the result of GetCurrentNet (none = RPC error), and the
result of the Version call (none = RPC error, some v = the advertised
"fnodjsonrpcapi" version). -/
structure ServerResponses where
  connectErr : Bool
  currentNet : Option Nat
  versionResult : Option semver
deriving Repr, DecidableEq

/-- The externally observable outcome of RPCClient.Start: the returned
error (if any), whether the started flag was set, whether the two handler
goroutines were launched, and whether the deferred Disconnect ran. -/
structure StartOutcome where
  err : Option StartError
  started : Bool
  handlersLaunched : Bool
  disconnected : Bool
deriving Repr, DecidableEq

/-- RPCClient.Start: connect (an error is returned as an IO error with no
deferred Disconnect installed yet); verify the server network equals the
configured chainParams.Net (mismatch returns an error and the deferred
Disconnect runs); query Version, discarding its error so the advertised
API stays the semver zero value in that case; check semverCompatible
against requiredChainServerAPI (incompatibility returns an error naming
the advertised version, and the deferred Disconnect runs); only then set
started and launch the handler and handlerVoting goroutines. -/
def Start (cfgNet : Nat) (srv : ServerResponses) : StartOutcome :=
  if srv.connectErr then
    { err := some StartError.transport, started := false,
      handlersLaunched := false, disconnected := false }
  else
    match srv.currentNet with
    | none =>
      { err := some StartError.getCurrentNetFailed, started := false,
        handlersLaunched := false, disconnected := true }
    | some net =>
      if net = cfgNet then
        let serverAPI : semver :=
          match srv.versionResult with
          | none => { major := 0, minor := 0, patch := 0 }
          | some v => v
        if semverCompatible requiredChainServerAPI serverAPI then
          { err := none, started := true,
            handlersLaunched := true, disconnected := false }
        else
          { err := some (StartError.protocolVersion serverAPI),
            started := false, handlersLaunched := false, disconnected := true }
      else
        { err := some StartError.protocolNet, started := false,
          handlersLaunched := false, disconnected := true }

/-- The idle window and probe timeout of the liveness prober, in seconds
(time.Minute). -/
def minute : Nat := 60

/-- State of the voting dispatch loop (RPCClient.handlerVoting) together
with its observable traces: the buffered notifications slice, whether the
enqueue channel is still non-nil (readable), whether the loop is still
running, whether the dequeue channel has been closed, whether the quit
channel has been closed, and the traces of events accepted from the
enqueue channel and handed to the consumer on the dequeue channel. -/
structure VState (α : Type) where
  buffer : List α
  enqueueOpen : Bool
  running : Bool
  outClosed : Bool
  quitClosed : Bool
  accepted : List α
  delivered : List α
deriving Repr, DecidableEq

/-- The state of handlerVoting when the loop is entered. -/
def vinit (α : Type) : VState α :=
  { buffer := [], enqueueOpen := true, running := true, outClosed := false,
    quitClosed := false, accepted := [], delivered := [] }

/-- The select alternatives of the handlerVoting loop, plus `stopSignal`
for an external Stop() closing the quit channel. -/
inductive VStep (α : Type) where
  | accept (e : α)
  | intakeClosed
  | deliver
  | quitExit
  | stopSignal
deriving Repr, DecidableEq

/-- One iteration of the handlerVoting select, as a guarded transition:
`none` when the chosen alternative is not enabled in the given state.
accept appends the event to the buffer; intakeClosed marks the enqueue
channel nil (or exits if nothing is buffered); deliver hands the head of
the buffer to the consumer (and exits when the buffer empties with the
intake closed); quitExit is the `<-c.quit` case, which breaks out of the
loop at once, after which the loop closes the dequeue channel; stopSignal
closes the quit channel from outside the loop. -/
def vstep {α : Type} : VStep α → VState α → Option (VState α)
  | .accept e, s =>
    if s.running && s.enqueueOpen then
      some { s with buffer := s.buffer ++ [e], accepted := s.accepted ++ [e] }
    else none
  | .intakeClosed, s =>
    if s.running && s.enqueueOpen then
      if s.buffer.isEmpty then
        some { s with running := false, outClosed := true }
      else
        some { s with enqueueOpen := false }
    else none
  | .deliver, s =>
    if s.running then
      match s.buffer with
      | [] => none
      | e :: rest =>
        if rest.isEmpty && !s.enqueueOpen then
          some { s with
              buffer := rest, delivered := s.delivered ++ [e],
              running := false, outClosed := true }
        else
          some { s with buffer := rest, delivered := s.delivered ++ [e] }
    else none
  | .quitExit, s =>
    if s.running && s.quitClosed then
      some { s with running := false, outClosed := true }
    else none
  | .stopSignal, s => some { s with quitClosed := true }

/-- Run a sequence of handlerVoting steps. -/
def vrun {α : Type} : List (VStep α) → VState α → Option (VState α)
  | [], s => some s
  | st :: rest, s =>
    match vstep st s with
    | none => none
    | some s' => vrun rest s'

/-- State of the general dispatch loop (RPCClient.handler): the voting
loop's fields plus the liveness prober's state. `stopRequested` records
that c.Stop() has been invoked from inside the loop or its probe
goroutines; `pingTimer` is the pending idle timer (none once it has fired
and has not been reset); `probe` is an in-flight Session probe with its
remaining timeout. -/
structure GState (α : Type) where
  buffer : List α
  enqueueOpen : Bool
  running : Bool
  outClosed : Bool
  quitClosed : Bool
  stopRequested : Bool
  pingTimer : Option Nat
  probe : Option Nat
  accepted : List α
  delivered : List α
deriving Repr, DecidableEq

/-- The state of handler when the loop is entered: pingChan is armed with
a fresh one-minute timer. -/
def ginit (α : Type) : GState α :=
  { buffer := [], enqueueOpen := true, running := true, outClosed := false,
    quitClosed := false, stopRequested := false, pingTimer := some minute,
    probe := none, accepted := [], delivered := [] }

/-- The select alternatives of the handler loop: the queue steps, the
passage of one second of time, the pingChan firing, the three outcomes of
the probe goroutine, the `<-c.quit` case, and an external Stop(). -/
inductive GStep (α : Type) where
  | accept (e : α)
  | intakeClosed
  | deliver
  | tick
  | pingFire
  | probeSuccess
  | probeError
  | probeTimeout
  | quitExit
  | stopSignal
deriving Repr, DecidableEq

/-- One step of the handler loop and its probe goroutines. accept also
rearms pingChan with a fresh minute (pingChan = time.After(time.Minute));
pingFire launches the Session probe with its own minute-long timeout;
probeSuccess (a response with a nil error before the timeout) feeds a
fresh timer back through pingChanReset; probeError (a response carrying an
error before the timeout) invokes c.Stop() and still feeds pingChanReset;
probeTimeout (no response within the timeout) invokes c.Stop(); quitExit
breaks out of the loop, after which handler calls c.Stop() and closes the
dequeue channel. Exits through a closed intake likewise run c.Stop() then
close the dequeue channel. -/
def gstep {α : Type} : GStep α → GState α → Option (GState α)
  | .accept e, s =>
    if s.running && s.enqueueOpen then
      some { s with
          buffer := s.buffer ++ [e], accepted := s.accepted ++ [e],
          pingTimer := some minute }
    else none
  | .intakeClosed, s =>
    if s.running && s.enqueueOpen then
      if s.buffer.isEmpty then
        some { s with
            running := false, outClosed := true,
            stopRequested := true, quitClosed := true }
      else
        some { s with enqueueOpen := false }
    else none
  | .deliver, s =>
    if s.running then
      match s.buffer with
      | [] => none
      | e :: rest =>
        if rest.isEmpty && !s.enqueueOpen then
          some { s with
              buffer := rest, delivered := s.delivered ++ [e],
              running := false, outClosed := true,
              stopRequested := true, quitClosed := true }
        else
          some { s with buffer := rest, delivered := s.delivered ++ [e] }
    else none
  | .tick, s =>
    if s.running then
      some { s with
          pingTimer := s.pingTimer.map (fun r => r - 1),
          probe := s.probe.map (fun r => r - 1) }
    else none
  | .pingFire, s =>
    if s.running && s.pingTimer == some 0 && s.probe == none then
      some { s with pingTimer := none, probe := some minute }
    else none
  | .probeSuccess, s =>
    if s.running then
      match s.probe with
      | some (_ + 1) => some { s with probe := none, pingTimer := some minute }
      | _ => none
    else none
  | .probeError, s =>
    if s.running then
      match s.probe with
      | some (_ + 1) =>
        some { s with
            probe := none, pingTimer := some minute,
            stopRequested := true, quitClosed := true }
      | _ => none
    else none
  | .probeTimeout, s =>
    if s.running then
      match s.probe with
      | some 0 =>
        some { s with probe := none, stopRequested := true, quitClosed := true }
      | _ => none
    else none
  | .quitExit, s =>
    if s.running && s.quitClosed then
      some { s with
          running := false, outClosed := true,
          stopRequested := true, quitClosed := true }
    else none
  | .stopSignal, s => some { s with quitClosed := true }

/-- Run a sequence of handler steps. -/
def grun {α : Type} : List (GStep α) → GState α → Option (GState α)
  | [], s => some s
  | st :: rest, s =>
    match gstep st s with
    | none => none
    | some s' => grun rest s'

/-- Every enabled handlerVoting step preserves the queue accounting
equation: the accepted trace is the delivered trace followed by the
current buffer. -/
lemma vstep_trace {α : Type} {t : VStep α} {s s' : VState α}
    (h : vstep t s = some s')
    (hi : s.accepted = s.delivered ++ s.buffer) :
    s'.accepted = s'.delivered ++ s'.buffer := by
  cases t with
  | accept e =>
    simp only [vstep] at h
    split at h
    · injection h with h
      subst h
      simp [hi]
    · exact Option.noConfusion h
  | intakeClosed =>
    simp only [vstep] at h
    split at h
    · split at h <;> (injection h with h; subst h; simpa using hi)
    · exact Option.noConfusion h
  | deliver =>
    rcases hbuf : s.buffer with _ | ⟨e, rest⟩ <;>
      simp only [vstep, hbuf] at h
    · split at h <;> exact Option.noConfusion h
    · rw [hbuf] at hi
      split at h
      · split at h <;> (injection h with h; subst h; simp [hi])
      · exact Option.noConfusion h
  | quitExit =>
    simp only [vstep] at h
    split at h
    · injection h with h
      subst h
      simpa using hi
    · exact Option.noConfusion h
  | stopSignal =>
    simp only [vstep] at h
    injection h with h
    subst h
    simpa using hi

/-- Every enabled handlerVoting step other than the quit exit keeps the
property that a stopped loop has an empty buffer. -/
lemma vstep_stopped {α : Type} {t : VStep α} {s s' : VState α}
    (h : vstep t s = some s') (hne : t ≠ VStep.quitExit)
    (hs : s.running = false → s.buffer = []) :
    s'.running = false → s'.buffer = [] := by
  cases t with
  | accept e =>
    simp only [vstep] at h
    split at h
    · next hc =>
      injection h with h
      subst h
      intro hr
      simp only at hr
      rw [Bool.and_eq_true] at hc
      rw [hc.1] at hr
      exact Bool.noConfusion hr
    · exact Option.noConfusion h
  | intakeClosed =>
    simp only [vstep] at h
    split at h
    · next hc =>
      split at h
      · next hemp =>
        injection h with h
        subst h
        intro _
        simpa using hemp
      · injection h with h
        subst h
        intro hr
        simp only at hr
        rw [Bool.and_eq_true] at hc
        rw [hc.1] at hr
        exact Bool.noConfusion hr
    · exact Option.noConfusion h
  | deliver =>
    rcases hbuf : s.buffer with _ | ⟨e, rest⟩ <;>
      simp only [vstep, hbuf] at h
    · split at h <;> exact Option.noConfusion h
    · split at h
      · next hc =>
        split at h
        · next hrest =>
          injection h with h
          subst h
          intro _
          rw [Bool.and_eq_true] at hrest
          simpa using hrest.1
        · injection h with h
          subst h
          intro hr
          simp only at hr
          rw [hc] at hr
          exact Bool.noConfusion hr
      · exact Option.noConfusion h
  | quitExit => exact absurd rfl hne
  | stopSignal =>
    simp only [vstep] at h
    injection h with h
    subst h
    intro hr
    simp only at hr
    simpa using hs hr

/-- The queue accounting equation holds after any run of handlerVoting
steps that started from a state satisfying it. -/
lemma vrun_trace {α : Type} :
    ∀ (steps : List (VStep α)) (s s' : VState α),
      vrun steps s = some s' →
      s.accepted = s.delivered ++ s.buffer →
      s'.accepted = s'.delivered ++ s'.buffer := by
  intro steps
  induction steps with
  | nil =>
    intro s s' h hi
    simp only [vrun] at h
    injection h with h
    subst h
    exact hi
  | cons st rest ih =>
    intro s s' h hi
    simp only [vrun] at h
    rcases hst : vstep st s with _ | s1 <;> rw [hst] at h
    · exact Option.noConfusion h
    · exact ih s1 s' h (vstep_trace hst hi)

/-- After a run of handlerVoting steps that never takes the quit exit, a
stopped loop has an empty buffer. -/
lemma vrun_stopped {α : Type} :
    ∀ (steps : List (VStep α)) (s s' : VState α),
      vrun steps s = some s' → (VStep.quitExit : VStep α) ∉ steps →
      (s.running = false → s.buffer = []) →
      s'.running = false → s'.buffer = [] := by
  intro steps
  induction steps with
  | nil =>
    intro s s' h _ hs
    simp only [vrun] at h
    injection h with h
    subst h
    exact hs
  | cons st rest ih =>
    intro s s' h hnq hs
    simp only [vrun] at h
    rcases hst : vstep st s with _ | s1 <;> rw [hst] at h
    · exact Option.noConfusion h
    · have hne : st ≠ VStep.quitExit := by
        intro he
        exact hnq (he ▸ List.mem_cons_self st rest)
      have hnq' : (VStep.quitExit : VStep α) ∉ rest := by
        intro hm
        exact hnq (List.mem_cons_of_mem st hm)
      exact ih s1 s' h hnq' (vstep_stopped hst hne hs)

/-- Every enabled handler step preserves the queue accounting equation:
the accepted trace is the delivered trace followed by the current
buffer. -/
lemma gstep_trace {α : Type} {t : GStep α} {s s' : GState α}
    (h : gstep t s = some s')
    (hi : s.accepted = s.delivered ++ s.buffer) :
    s'.accepted = s'.delivered ++ s'.buffer := by
  cases t with
  | accept e =>
    simp only [gstep] at h
    split at h
    · injection h with h
      subst h
      simp [hi]
    · exact Option.noConfusion h
  | intakeClosed =>
    simp only [gstep] at h
    split at h
    · split at h <;> (injection h with h; subst h; simpa using hi)
    · exact Option.noConfusion h
  | deliver =>
    rcases hbuf : s.buffer with _ | ⟨e, rest⟩ <;>
      simp only [gstep, hbuf] at h
    · split at h <;> exact Option.noConfusion h
    · rw [hbuf] at hi
      split at h
      · split at h <;> (injection h with h; subst h; simp [hi])
      · exact Option.noConfusion h
  | tick =>
    simp only [gstep] at h
    split at h
    · injection h with h
      subst h
      simpa using hi
    · exact Option.noConfusion h
  | pingFire =>
    simp only [gstep] at h
    split at h
    · injection h with h
      subst h
      simpa using hi
    · exact Option.noConfusion h
  | probeSuccess =>
    rcases hp : s.probe with _ | (_ | r) <;> simp only [gstep, hp] at h <;>
      split at h <;> first
        | exact Option.noConfusion h
        | (injection h with h; subst h; simpa using hi)
  | probeError =>
    rcases hp : s.probe with _ | (_ | r) <;> simp only [gstep, hp] at h <;>
      split at h <;> first
        | exact Option.noConfusion h
        | (injection h with h; subst h; simpa using hi)
  | probeTimeout =>
    rcases hp : s.probe with _ | (_ | r) <;> simp only [gstep, hp] at h <;>
      split at h <;> first
        | exact Option.noConfusion h
        | (injection h with h; subst h; simpa using hi)
  | quitExit =>
    simp only [gstep] at h
    split at h
    · injection h with h
      subst h
      simpa using hi
    · exact Option.noConfusion h
  | stopSignal =>
    simp only [gstep] at h
    injection h with h
    subst h
    simpa using hi

/-- Every enabled handler step other than the quit exit keeps the property
that a stopped loop has an empty buffer. -/
lemma gstep_stopped {α : Type} {t : GStep α} {s s' : GState α}
    (h : gstep t s = some s') (hne : t ≠ GStep.quitExit)
    (hs : s.running = false → s.buffer = []) :
    s'.running = false → s'.buffer = [] := by
  cases t with
  | accept e =>
    simp only [gstep] at h
    split at h
    · next hc =>
      injection h with h
      subst h
      intro hr
      simp only at hr
      rw [Bool.and_eq_true] at hc
      rw [hc.1] at hr
      exact Bool.noConfusion hr
    · exact Option.noConfusion h
  | intakeClosed =>
    simp only [gstep] at h
    split at h
    · next hc =>
      split at h
      · next hemp =>
        injection h with h
        subst h
        intro _
        simpa using hemp
      · injection h with h
        subst h
        intro hr
        simp only at hr
        rw [Bool.and_eq_true] at hc
        rw [hc.1] at hr
        exact Bool.noConfusion hr
    · exact Option.noConfusion h
  | deliver =>
    rcases hbuf : s.buffer with _ | ⟨e, rest⟩ <;>
      simp only [gstep, hbuf] at h
    · split at h <;> exact Option.noConfusion h
    · split at h
      · next hc =>
        split at h
        · next hrest =>
          injection h with h
          subst h
          intro _
          rw [Bool.and_eq_true] at hrest
          simpa using hrest.1
        · injection h with h
          subst h
          intro hr
          simp only at hr
          rw [hc] at hr
          exact Bool.noConfusion hr
      · exact Option.noConfusion h
  | tick =>
    simp only [gstep] at h
    split at h
    · next hc =>
      injection h with h
      subst h
      intro hr
      simp only at hr
      rw [hc] at hr
      exact Bool.noConfusion hr
    · exact Option.noConfusion h
  | pingFire =>
    simp only [gstep] at h
    split at h
    · next hc =>
      injection h with h
      subst h
      intro hr
      simp only at hr
      rw [Bool.and_eq_true, Bool.and_eq_true] at hc
      rw [hc.1.1] at hr
      exact Bool.noConfusion hr
    · exact Option.noConfusion h
  | probeSuccess =>
    rcases hp : s.probe with _ | (_ | r) <;> simp only [gstep, hp] at h <;>
      split at h <;> first
        | exact Option.noConfusion h
        | (next hc =>
            injection h with h
            subst h
            intro hr
            simp only at hr
            rw [hc] at hr
            exact Bool.noConfusion hr)
  | probeError =>
    rcases hp : s.probe with _ | (_ | r) <;> simp only [gstep, hp] at h <;>
      split at h <;> first
        | exact Option.noConfusion h
        | (next hc =>
            injection h with h
            subst h
            intro hr
            simp only at hr
            rw [hc] at hr
            exact Bool.noConfusion hr)
  | probeTimeout =>
    rcases hp : s.probe with _ | (_ | r) <;> simp only [gstep, hp] at h <;>
      split at h <;> first
        | exact Option.noConfusion h
        | (next hc =>
            injection h with h
            subst h
            intro hr
            simp only at hr
            rw [hc] at hr
            exact Bool.noConfusion hr)
  | quitExit => exact absurd rfl hne
  | stopSignal =>
    simp only [gstep] at h
    injection h with h
    subst h
    intro hr
    simp only at hr
    simpa using hs hr

/-- The queue accounting equation holds after any run of handler steps
that started from a state satisfying it. -/
lemma grun_trace {α : Type} :
    ∀ (steps : List (GStep α)) (s s' : GState α),
      grun steps s = some s' →
      s.accepted = s.delivered ++ s.buffer →
      s'.accepted = s'.delivered ++ s'.buffer := by
  intro steps
  induction steps with
  | nil =>
    intro s s' h hi
    simp only [grun] at h
    injection h with h
    subst h
    exact hi
  | cons st rest ih =>
    intro s s' h hi
    simp only [grun] at h
    rcases hst : gstep st s with _ | s1 <;> rw [hst] at h
    · exact Option.noConfusion h
    · exact ih s1 s' h (gstep_trace hst hi)

/-- After a run of handler steps that never takes the quit exit, a stopped
loop has an empty buffer. -/
lemma grun_stopped {α : Type} :
    ∀ (steps : List (GStep α)) (s s' : GState α),
      grun steps s = some s' → (GStep.quitExit : GStep α) ∉ steps →
      (s.running = false → s.buffer = []) →
      s'.running = false → s'.buffer = [] := by
  intro steps
  induction steps with
  | nil =>
    intro s s' h _ hs
    simp only [grun] at h
    injection h with h
    subst h
    exact hs
  | cons st rest ih =>
    intro s s' h hnq hs
    simp only [grun] at h
    rcases hst : gstep st s with _ | s1 <;> rw [hst] at h
    · exact Option.noConfusion h
    · have hne : st ≠ GStep.quitExit := by
        intro he
        exact hnq (he ▸ List.mem_cons_self st rest)
      have hnq' : (GStep.quitExit : GStep α) ∉ rest := by
        intro hm
        exact hnq (List.mem_cons_of_mem st hm)
      exact ih s1 s' h hnq' (gstep_stopped hst hne hs)

/-- Claim C1, counterexample: in the voting queue, event 3 is accepted
while the queue is open, then an external Stop closes the quit channel and
the dispatch loop takes the `<-c.quit` branch, which breaks out of the
loop and closes the output channel at once. The final state has the
output channel closed with nothing delivered, yet the accepted trace is
[3], so the consumer does not observe every accepted event: the claimed
"none dropped" fails. -/
theorem c1_counterexample :
    vrun [VStep.accept 3, VStep.stopSignal, VStep.quitExit] (vinit Nat) =
      some
        { buffer := [3], enqueueOpen := true, running := false,
          outClosed := true, quitClosed := true, accepted := [3],
          delivered := [] } ∧
    ([] : List Nat) ≠ [3] :=
  ⟨rfl, by decide⟩

/-- Claim C1 (amended): for every run of either dispatch loop, the
delivered trace followed by the still-buffered events equals the accepted
trace, so the consumer observes a prefix of the accepted events in exactly
the order accepted, with no duplication, reordering or skipping; and in
every run that never takes the quit-channel exit, a terminated loop has
delivered exactly the accepted events. (Events still buffered when the
loop exits through the quit branch are dropped.) -/
theorem c1_fifo_order :
    (∀ (α : Type) (steps : List (VStep α)) (s' : VState α),
        vrun steps (vinit α) = some s' →
        s'.accepted = s'.delivered ++ s'.buffer ∧
        ((VStep.quitExit : VStep α) ∉ steps → s'.running = false →
          s'.delivered = s'.accepted)) ∧
    (∀ (α : Type) (steps : List (GStep α)) (s' : GState α),
        grun steps (ginit α) = some s' →
        s'.accepted = s'.delivered ++ s'.buffer ∧
        ((GStep.quitExit : GStep α) ∉ steps → s'.running = false →
          s'.delivered = s'.accepted)) := by
  constructor
  · intro α steps s' h
    have htr := vrun_trace steps (vinit α) s' h rfl
    refine ⟨htr, ?_⟩
    intro hnq hrun
    have hbuf := vrun_stopped steps (vinit α) s' h hnq (by simp [vinit]) hrun
    rw [htr, hbuf, List.append_nil]
  · intro α steps s' h
    have htr := grun_trace steps (ginit α) s' h rfl
    refine ⟨htr, ?_⟩
    intro hnq hrun
    have hbuf := grun_stopped steps (ginit α) s' h hnq (by simp [ginit]) hrun
    rw [htr, hbuf, List.append_nil]

/-- A concrete quit-free run of handlerVoting used by the c1 witness. -/
def vdemo : List (VStep Nat) :=
  [VStep.accept 1, VStep.accept 2, VStep.deliver, VStep.deliver,
   VStep.intakeClosed]

/-- The final state of vdemo. -/
def vdemoFinal : VState Nat :=
  { buffer := [], enqueueOpen := true, running := false, outClosed := true,
    quitClosed := false, accepted := [1, 2], delivered := [1, 2] }

/-- A concrete quit-free run of handler used by the c1 witness. -/
def gdemo : List (GStep Nat) :=
  [GStep.accept 4, GStep.deliver, GStep.intakeClosed]

/-- The final state of gdemo. -/
def gdemoFinal : GState Nat :=
  { buffer := [], enqueueOpen := true, running := false, outClosed := true,
    quitClosed := true, stopRequested := true, pingTimer := some minute,
    probe := none, accepted := [4], delivered := [4] }

/-- Witness for c1_fifo_order on concrete runs of both loops. -/
theorem c1_fifo_order_witness :
    vrun vdemo (vinit Nat) = some vdemoFinal ∧
    vdemoFinal.accepted = vdemoFinal.delivered ++ vdemoFinal.buffer ∧
    vdemoFinal.delivered = vdemoFinal.accepted ∧
    grun gdemo (ginit Nat) = some gdemoFinal ∧
    gdemoFinal.accepted = gdemoFinal.delivered ++ gdemoFinal.buffer ∧
    gdemoFinal.delivered = gdemoFinal.accepted :=
  ⟨rfl,
   (c1_fifo_order.1 Nat vdemo vdemoFinal rfl).1,
   (c1_fifo_order.1 Nat vdemo vdemoFinal rfl).2 (by decide) rfl,
   rfl,
   (c1_fifo_order.2 Nat gdemo gdemoFinal rfl).1,
   (c1_fifo_order.2 Nat gdemo gdemoFinal rfl).2 (by decide) rfl⟩

/-- Claim C2, counterexample: in the general queue, event 7 is buffered
when Stop closes the quit channel; the dispatch loop then takes the
`<-c.quit` branch, which exits and closes the output channel while the
buffer still holds the event, so the loop does not first deliver every
already-buffered event before closing. -/
theorem c2_counterexample :
    grun [GStep.accept 7, GStep.stopSignal, GStep.quitExit] (ginit Nat) =
      some
        { buffer := [7], enqueueOpen := true, running := false,
          outClosed := true, quitClosed := true, stopRequested := true,
          pingTimer := some minute, probe := none, accepted := [7],
          delivered := [] } ∧
    ([] : List Nat) ≠ [7] :=
  ⟨rfl, by decide⟩

/-- Claim C2 (amended): after Stop() has closed the quit channel, each
dispatch loop's quit branch is enabled whenever the loop is still
running, and taking it closes the output channel in that single step —
so both output streams close without waiting on new production or on the
consumer — but the loop exits without draining: whatever is buffered at
that moment is discarded, not delivered. -/
theorem c2_quit_closes_output :
    (∀ (α : Type) (s : VState α), s.running = true → s.quitClosed = true →
        vstep VStep.quitExit s =
          some { s with running := false, outClosed := true }) ∧
    (∀ (α : Type) (s : GState α), s.running = true → s.quitClosed = true →
        gstep GStep.quitExit s =
          some { s with
              running := false, outClosed := true,
              stopRequested := true, quitClosed := true }) := by
  constructor
  · intro α s h1 h2
    simp [vstep, h1, h2]
  · intro α s h1 h2
    simp [gstep, h1, h2]

/-- A voting-loop state with the quit channel closed, for the c2 witness. -/
def vq : VState Nat :=
  { buffer := [9], enqueueOpen := true, running := true, outClosed := false,
    quitClosed := true, accepted := [9], delivered := [] }

/-- A general-loop state with the quit channel closed, for the c2 witness. -/
def gq : GState Nat :=
  { buffer := [9], enqueueOpen := true, running := true, outClosed := false,
    quitClosed := true, stopRequested := false, pingTimer := some minute,
    probe := none, accepted := [9], delivered := [] }

/-- Witness for c2_quit_closes_output at concrete states. -/
theorem c2_quit_closes_output_witness :
    vstep VStep.quitExit vq =
      some { vq with running := false, outClosed := true } ∧
    gstep GStep.quitExit gq =
      some { gq with
          running := false, outClosed := true,
          stopRequested := true, quitClosed := true } :=
  ⟨c2_quit_closes_output.1 Nat vq rfl rfl,
   c2_quit_closes_output.2 Nat gq rfl rfl⟩

/-- Claim C3: Stop is idempotent. A call that finds the quit channel
already closed performs no action at all; a first call from a state in
which the consumer channels are still open (as they are while quit is
open, since the dispatch loops only close them after observing quit or a
closed intake) runs exactly one teardown, panics on no double close, and
leaves a state in which every later Stop is a no-op. The quitMtx mutex
serializes concurrent calls, so the sequential composition modelled here
covers the concurrent case. -/
theorem c3_stop_idempotent :
    (∀ s : ClientState, s.quitClosed = true → Stop s = some s) ∧
    (∀ s : ClientState,
        s.dequeueClosed = false → s.dequeueVotingClosed = false →
        (Stop s).isSome = true ∧
        ∀ s', Stop s = some s' → s'.quitClosed = true ∧ Stop s' = some s') := by
  constructor
  · intro s hq
    simp [Stop, hq]
  · intro s h1 h2
    rcases hq : s.quitClosed with _ | _
    · obtain ⟨q, st, sh, d1, d2⟩ := s
      simp only at h1 h2 hq
      subst h1
      subst h2
      subst hq
      cases st
      · refine ⟨rfl, ?_⟩
        intro s' hs'
        injection hs' with hs'
        subst hs'
        exact ⟨rfl, rfl⟩
      · refine ⟨rfl, ?_⟩
        intro s' hs'
        injection hs' with hs'
        subst hs'
        exact ⟨rfl, rfl⟩
    · refine ⟨by simp [Stop, hq], ?_⟩
      intro s' hs'
      rw [Stop, if_pos hq] at hs'
      injection hs' with hs'
      subst hs'
      exact ⟨hq, by simp [Stop, hq]⟩

/-- Witness for c3_stop_idempotent: a first Stop from a fresh never-started
client succeeds without a double close, and a second Stop on the resulting
state is a no-op. -/
theorem c3_stop_idempotent_witness :
    (Stop
        { quitClosed := false, started := false, shutdownCalled := false,
          dequeueClosed := false, dequeueVotingClosed := false }).isSome =
      true ∧
    ClientState.quitClosed
        { quitClosed := true, started := false, shutdownCalled := true,
          dequeueClosed := true, dequeueVotingClosed := true } = true ∧
    Stop
        { quitClosed := true, started := false, shutdownCalled := true,
          dequeueClosed := true, dequeueVotingClosed := true } =
      some
        { quitClosed := true, started := false, shutdownCalled := true,
          dequeueClosed := true, dequeueVotingClosed := true } :=
  ⟨(c3_stop_idempotent.2
      { quitClosed := false, started := false, shutdownCalled := false,
        dequeueClosed := false, dequeueVotingClosed := false } rfl rfl).1,
   ((c3_stop_idempotent.2
      { quitClosed := false, started := false, shutdownCalled := false,
        dequeueClosed := false, dequeueVotingClosed := false } rfl rfl).2
      { quitClosed := true, started := false, shutdownCalled := true,
        dequeueClosed := true, dequeueVotingClosed := true } rfl).1,
   ((c3_stop_idempotent.2
      { quitClosed := false, started := false, shutdownCalled := false,
        dequeueClosed := false, dequeueVotingClosed := false } rfl rfl).2
      { quitClosed := true, started := false, shutdownCalled := true,
        dequeueClosed := true, dequeueVotingClosed := true } rfl).2⟩

/-- Claim C4: the translator callbacks are stateless, so routing is fixed
regardless of arrival order: onWinningTickets always targets the voting
queue with a winningTickets payload, while the other six callbacks always
target the general queue and never carry a winningTickets payload. -/
theorem c4_routing :
    (∀ (h : Hash) (ht : Int) (ts : List Hash),
        onWinningTickets h ht ts =
          (Queue.voting, Notification.winningTickets h ht ts)) ∧
    (∀ (hd : List Nat) (txs : List (List Nat)),
        (onBlockConnected hd txs).1 = Queue.general ∧
        isWinningTickets (onBlockConnected hd txs).2 = false) ∧
    (∀ hd : List Nat,
        (onBlockDisconnected hd).1 = Queue.general ∧
        isWinningTickets (onBlockDisconnected hd).2 = false) ∧
    (∀ (deserialize : List Nat → Option MsgTx) (tx : List Nat)
        (r : Queue × Notification),
        onRelevantTxAccepted deserialize tx = some r →
        r.1 = Queue.general ∧ isWinningTickets r.2 = false) ∧
    (∀ (oh : Hash) (ohh : Int) (nh : Hash) (nhh : Int),
        (onReorganization oh ohh nh nhh).1 = Queue.general ∧
        isWinningTickets (onReorganization oh ohh nh nhh).2 = false) ∧
    (∀ (bh : Hash) (ht sd : Int) (ts : List (Hash × Bool))
        (r : Queue × Notification),
        onSpentAndMissedTickets bh ht sd ts = some r →
        r.1 = Queue.general ∧ isWinningTickets r.2 = false) ∧
    (∀ (h : Hash) (ht sd : Int),
        (onStakeDifficulty h ht sd).1 = Queue.general ∧
        isWinningTickets (onStakeDifficulty h ht sd).2 = false) := by
  refine ⟨fun _ _ _ => rfl, fun _ _ => ⟨rfl, rfl⟩, fun _ => ⟨rfl, rfl⟩,
    ?_, fun _ _ _ _ => ⟨rfl, rfl⟩, ?_, fun _ _ _ => ⟨rfl, rfl⟩⟩
  · intro deserialize tx r h
    rcases hd : deserialize tx with _ | m <;>
      simp only [onRelevantTxAccepted, hd] at h
    · exact Option.noConfusion h
    · injection h with h
      subst h
      exact ⟨rfl, rfl⟩
  · intro bh ht sd ts r h
    simp only [onSpentAndMissedTickets] at h
    split at h
    · exact Option.noConfusion h
    · injection h with h
      subst h
      exact ⟨rfl, rfl⟩

/-- Witness for c4_routing at concrete callback arguments. -/
theorem c4_routing_witness :
    onWinningTickets 1 2 [3] =
      (Queue.voting, Notification.winningTickets 1 2 [3]) ∧
    (onBlockConnected [1] [[2]]).1 = Queue.general ∧
    isWinningTickets (onBlockConnected [1] [[2]]).2 = false ∧
    (onBlockDisconnected [1]).1 = Queue.general ∧
    ((Queue.general, Notification.relevantTxAccepted ⟨5⟩).1 = Queue.general ∧
      isWinningTickets
        (Queue.general, Notification.relevantTxAccepted ⟨5⟩).2 = false) ∧
    (onReorganization 1 2 3 4).1 = Queue.general ∧
    ((Queue.general, Notification.missedTickets 1 2 [6]).1 = Queue.general ∧
      isWinningTickets
        (Queue.general, Notification.missedTickets 1 2 [6]).2 = false) ∧
    (onStakeDifficulty 1 2 3).1 = Queue.general :=
  ⟨c4_routing.1 1 2 [3],
   (c4_routing.2.1 [1] [[2]]).1,
   (c4_routing.2.1 [1] [[2]]).2,
   (c4_routing.2.2.1 [1]).1,
   c4_routing.2.2.2.1 (fun _ => some ⟨5⟩) [9]
     (Queue.general, Notification.relevantTxAccepted ⟨5⟩) rfl,
   (c4_routing.2.2.2.2.1 1 2 3 4).1,
   c4_routing.2.2.2.2.2.1 1 2 3 [(6, false)]
     (Queue.general, Notification.missedTickets 1 2 [6]) rfl,
   (c4_routing.2.2.2.2.2.2 1 2 3).1⟩

/-- Membership in the missed subset: a hash is in missedOf tickets exactly
when it is paired with a false spent flag in the input mapping. -/
lemma mem_missedOf {t : Hash} {tickets : List (Hash × Bool)} :
    t ∈ missedOf tickets ↔ (t, false) ∈ tickets := by
  simp only [missedOf, List.mem_map, List.mem_filter]
  constructor
  · rintro ⟨⟨a, b⟩, ⟨hmem, hb⟩, rfl⟩
    rcases b with _ | _
    · exact hmem
    · exact Bool.noConfusion hb
  · intro hmem
    exact ⟨(t, false), ⟨hmem, rfl⟩, rfl⟩

/-- Claim C5: onSpentAndMissedTickets produces no event exactly when every
ticket in the mapping is spent; when it produces an event, that event is a
single missedTickets event on the general queue whose ticket list contains
exactly the hashes whose spent flag is false; and the mapping
{T1 ↦ false, T2 ↦ true} yields exactly one event containing only T1. -/
theorem c5_missed_tickets_filter :
    (∀ (bh : Hash) (ht sd : Int) (tickets : List (Hash × Bool)),
        onSpentAndMissedTickets bh ht sd tickets = none ↔
          ∀ p ∈ tickets, p.2 = true) ∧
    (∀ (bh : Hash) (ht sd : Int) (tickets : List (Hash × Bool))
        (q : Queue) (n : Notification),
        onSpentAndMissedTickets bh ht sd tickets = some (q, n) →
        q = Queue.general ∧
        n = Notification.missedTickets bh ht (missedOf tickets) ∧
        ∀ t : Hash, t ∈ missedOf tickets ↔ (t, false) ∈ tickets) ∧
    (∀ (bh : Hash) (ht sd : Int) (t1 t2 : Hash),
        onSpentAndMissedTickets bh ht sd [(t1, false), (t2, true)] =
          some (Queue.general, Notification.missedTickets bh ht [t1])) := by
  refine ⟨?_, ?_, ?_⟩
  · intro bh ht sd tickets
    constructor
    · intro h p hp
      simp only [onSpentAndMissedTickets] at h
      split at h
      · next hemp =>
        rw [List.isEmpty_iff] at hemp
        by_contra hfalse
        have hpf : (p.1, false) ∈ tickets := by
          have : p.2 = false := by
            rcases hb : p.2 with _ | _
            · rfl
            · exact absurd hb hfalse
          rw [← this]
          exact hp
        have : p.1 ∈ missedOf tickets := mem_missedOf.mpr hpf
        rw [hemp] at this
        exact absurd this (List.not_mem_nil p.1)
      · exact Option.noConfusion h
    · intro hall
      have hnil : missedOf tickets = [] := by
        simp only [missedOf, List.map_eq_nil_iff]
        rw [List.filter_eq_nil_iff]
        intro p hp
        simp [hall p hp]
      simp [onSpentAndMissedTickets, hnil]
  · intro bh ht sd tickets q n h
    simp only [onSpentAndMissedTickets] at h
    split at h
    · exact Option.noConfusion h
    · injection h with h
      injection h with h1 h2
      subst h1
      subst h2
      exact ⟨rfl, rfl, fun t => mem_missedOf⟩
  · intro bh ht sd t1 t2
    rfl

/-- Witness for c5_missed_tickets_filter at concrete mappings. -/
theorem c5_missed_tickets_filter_witness :
    onSpentAndMissedTickets 1 2 3 [(10, true), (20, true)] = none ∧
    Queue.general = Queue.general ∧
    Notification.missedTickets 1 2 [10] =
      Notification.missedTickets 1 2 (missedOf [(10, false), (20, true)]) ∧
    ((10 : Hash) ∈ missedOf [(10, false), (20, true)] ↔
      ((10 : Hash), false) ∈ [((10 : Hash), false), (20, true)]) ∧
    onSpentAndMissedTickets 1 2 3 [(10, false), (20, true)] =
      some (Queue.general, Notification.missedTickets 1 2 [10]) :=
  ⟨(c5_missed_tickets_filter.1 1 2 3 [(10, true), (20, true)]).mpr
     (by decide),
   (c5_missed_tickets_filter.2.1 1 2 3 [(10, false), (20, true)]
      Queue.general (Notification.missedTickets 1 2 [10]) rfl).1,
   (c5_missed_tickets_filter.2.1 1 2 3 [(10, false), (20, true)]
      Queue.general (Notification.missedTickets 1 2 [10]) rfl).2.1,
   (c5_missed_tickets_filter.2.1 1 2 3 [(10, false), (20, true)]
      Queue.general (Notification.missedTickets 1 2 [10]) rfl).2.2 10,
   c5_missed_tickets_filter.2.2 1 2 3 10 20⟩

/-- Claim C9: from a live client (quit channel open, consumer channels
open, as they are while no Stop has run and the dispatch loops have not
exited), Stop closes both consumer-facing channels exactly when the
Session never successfully started; when it had started, Stop leaves both
channels untouched (the dispatch loops close them instead). -/
theorem c9_stop_channel_close :
    ∀ s : ClientState, s.quitClosed = false → s.dequeueClosed = false →
      s.dequeueVotingClosed = false →
      (s.started = false → Stop s =
        some { s with
            quitClosed := true, shutdownCalled := true,
            dequeueClosed := true, dequeueVotingClosed := true }) ∧
      (s.started = true → Stop s =
        some { s with quitClosed := true, shutdownCalled := true }) := by
  intro s hq h1 h2
  obtain ⟨q, st, sh, d1, d2⟩ := s
  simp only at hq h1 h2
  subst hq
  subst h1
  subst h2
  constructor
  · intro hst
    simp only at hst
    subst hst
    rfl
  · intro hst
    simp only at hst
    subst hst
    rfl

/-- Witness for c9_stop_channel_close: a never-started client and a
started client. -/
theorem c9_stop_channel_close_witness :
    Stop
        { quitClosed := false, started := false, shutdownCalled := false,
          dequeueClosed := false, dequeueVotingClosed := false } =
      some
        { quitClosed := true, started := false, shutdownCalled := true,
          dequeueClosed := true, dequeueVotingClosed := true } ∧
    Stop
        { quitClosed := false, started := true, shutdownCalled := false,
          dequeueClosed := false, dequeueVotingClosed := false } =
      some
        { quitClosed := true, started := true, shutdownCalled := true,
          dequeueClosed := false, dequeueVotingClosed := false } :=
  ⟨(c9_stop_channel_close
      { quitClosed := false, started := false, shutdownCalled := false,
        dequeueClosed := false, dequeueVotingClosed := false }
      rfl rfl rfl).1 rfl,
   (c9_stop_channel_close
      { quitClosed := false, started := true, shutdownCalled := false,
        dequeueClosed := false, dequeueVotingClosed := false }
      rfl rfl rfl).2 rfl⟩

/-- Claim C6: with requiredChainServerAPI = 5.0.0, Start against a
matching-network server advertising 4.9.0 fails with the Protocol
incompatible-API-version error, Start against one advertising 5.2.3
passes the version check and starts the handlers, and compatibility is
exactly same-major plus advertised ≥ minimum. -/
theorem c6_api_version_check :
    (∀ cfgNet : Nat,
        Start cfgNet
          { connectErr := false, currentNet := some cfgNet,
            versionResult := some { major := 4, minor := 9, patch := 0 } } =
        { err := some (StartError.protocolVersion
              { major := 4, minor := 9, patch := 0 }),
          started := false, handlersLaunched := false,
          disconnected := true }) ∧
    (∀ cfgNet : Nat,
        Start cfgNet
          { connectErr := false, currentNet := some cfgNet,
            versionResult := some { major := 5, minor := 2, patch := 3 } } =
        { err := none, started := true, handlersLaunched := true,
          disconnected := false }) ∧
    (∀ v : semver,
        semverCompatible requiredChainServerAPI v = true ↔
          (requiredChainServerAPI.major = v.major ∧
            (requiredChainServerAPI.minor < v.minor ∨
              (requiredChainServerAPI.minor = v.minor ∧
                requiredChainServerAPI.patch ≤ v.patch)))) := by
  refine ⟨?_, ?_, ?_⟩
  · intro cfgNet
    simp only [Start]
    simp
    rfl
  · intro cfgNet
    simp only [Start]
    simp
    rfl
  · intro v
    simp only [semverCompatible, Bool.and_eq_true, Bool.or_eq_true,
      decide_eq_true_eq, beq_iff_eq]

/-- Claim C7: whenever the server reports a network different from the
configured one, Start returns the mismatched-networks Protocol error, the
started flag is not set, no dispatch loop is launched, and the deferred
Disconnect has torn the transport down before Start returns — whatever
the Version call would have said. -/
theorem c7_network_mismatch :
    ∀ (cfgNet net : Nat) (vr : Option semver), net ≠ cfgNet →
      Start cfgNet
        { connectErr := false, currentNet := some net,
          versionResult := vr } =
      { err := some StartError.protocolNet, started := false,
        handlersLaunched := false, disconnected := true } := by
  intro cfgNet net vr h
  simp [Start, h]

/-- Witness for c7_network_mismatch at a concrete mismatched pair. -/
theorem c7_network_mismatch_witness :
    (1 : Nat) ≠ 0 ∧
    Start 0
        { connectErr := false, currentNet := some 1,
          versionResult := none } =
      { err := some StartError.protocolNet, started := false,
        handlersLaunched := false, disconnected := true } :=
  ⟨by decide, c7_network_mismatch 0 1 none (by decide)⟩

/-- Claim C8: accepting an event into the general queue rearms the idle
timer to a full minute; the timer can fire only once it has counted down
to zero with no probe in flight, and firing issues a probe with its own
minute-long timeout; a probe response carrying an error, or a probe that
reaches its timeout, invokes Stop internally (stopRequested and the quit
channel closing, with no caller action); a probe that responds without
error before its timeout only resets the idle timer, leaving
stopRequested and the quit channel exactly as they were. -/
theorem c8_liveness_probe :
    (∀ (α : Type) (s : GState α) (e : α),
        s.running = true → s.enqueueOpen = true →
        gstep (GStep.accept e) s =
          some { s with
              buffer := s.buffer ++ [e], accepted := s.accepted ++ [e],
              pingTimer := some minute }) ∧
    (∀ (α : Type) (s : GState α),
        s.running = true → s.pingTimer = some 0 → s.probe = none →
        gstep GStep.pingFire s =
          some { s with pingTimer := none, probe := some minute }) ∧
    (∀ (α : Type) (s : GState α) (r : Nat),
        s.running = true → s.probe = some (r + 1) →
        gstep GStep.probeSuccess s =
          some { s with probe := none, pingTimer := some minute }) ∧
    (∀ (α : Type) (s : GState α) (r : Nat),
        s.running = true → s.probe = some (r + 1) →
        gstep GStep.probeError s =
          some { s with
              probe := none, pingTimer := some minute,
              stopRequested := true, quitClosed := true }) ∧
    (∀ (α : Type) (s : GState α),
        s.running = true → s.probe = some 0 →
        gstep GStep.probeTimeout s =
          some { s with
              probe := none, stopRequested := true,
              quitClosed := true }) := by
  refine ⟨?_, ?_, ?_, ?_, ?_⟩
  · intro α s e h1 h2
    simp [gstep, h1, h2]
  · intro α s h1 h2 h3
    simp [gstep, h1, h2, h3]
  · intro α s r h1 h2
    simp [gstep, h1, h2]
  · intro α s r h1 h2
    simp [gstep, h1, h2]
  · intro α s h1 h2
    simp [gstep, h1, h2]

/-- A running general-loop state whose idle timer has counted down to
zero, for the c8 witness. -/
def gsIdle : GState Nat :=
  { buffer := [], enqueueOpen := true, running := true, outClosed := false,
    quitClosed := false, stopRequested := false, pingTimer := some 0,
    probe := none, accepted := [], delivered := [] }

/-- gsIdle with a probe in flight that has its full timeout remaining. -/
def gsProbe : GState Nat :=
  { gsIdle with pingTimer := none, probe := some minute }

/-- gsIdle with a probe in flight whose timeout has expired. -/
def gsProbe0 : GState Nat :=
  { gsIdle with pingTimer := none, probe := some 0 }

/-- Witness for c8_liveness_probe at concrete states. -/
theorem c8_liveness_probe_witness :
    gstep (GStep.accept 5) gsIdle =
      some { gsIdle with
          buffer := [5], accepted := [5], pingTimer := some minute } ∧
    gstep GStep.pingFire gsIdle =
      some { gsIdle with pingTimer := none, probe := some minute } ∧
    gstep GStep.probeSuccess gsProbe =
      some { gsProbe with probe := none, pingTimer := some minute } ∧
    gstep GStep.probeError gsProbe =
      some { gsProbe with
          probe := none, pingTimer := some minute,
          stopRequested := true, quitClosed := true } ∧
    gstep GStep.probeTimeout gsProbe0 =
      some { gsProbe0 with
          probe := none, stopRequested := true, quitClosed := true } :=
  ⟨c8_liveness_probe.1 Nat gsIdle 5 rfl rfl,
   c8_liveness_probe.2.1 Nat gsIdle rfl rfl rfl,
   c8_liveness_probe.2.2.1 Nat gsProbe 59 rfl rfl,
   c8_liveness_probe.2.2.2.1 Nat gsProbe 59 rfl rfl,
   c8_liveness_probe.2.2.2.2 Nat gsProbe0 rfl rfl⟩

/-- Claim C10: when the Version RPC fails during Start (against a server
on the right network), the error is discarded, the advertised API stays
the semver zero value 0.0.0, and Start returns the Protocol
incompatible-API-version error naming 0.0.0 — not a transport error. -/
theorem c10_version_error_as_zero :
    ∀ cfgNet : Nat,
      Start cfgNet
        { connectErr := false, currentNet := some cfgNet,
          versionResult := none } =
      { err := some (StartError.protocolVersion
            { major := 0, minor := 0, patch := 0 }),
        started := false, handlersLaunched := false,
        disconnected := true } := by
  intro cfgNet
  simp [Start]
  rfl

end Chain
